import Mathlib

/-!
Shallow embedding of the monitoring engine of `system_monitor.py`
(`class SystemMonitor`) together with proofs of the claimed properties.

Conventions of the embedding:
* Percentages, which Python stores as floats, are modelled as rationals
  (`ℚ`); timestamps are modelled as integers (`ℤ`) measured in hours, so
  that `datetime.now() - timedelta(hours=h)` is plain subtraction.
* A Python dict that may lack a key (because the domain collector failed and
  returned `{}`) is modelled with `Option`: `d.get(k, v)` becomes `(·.getD v)`.
* Formatted human-readable `message` strings of alerts, and the fields of
  snapshots not inspected by the verified operations (per-core percents,
  frequencies, swap, network, processes, disk I/O counters), are omitted:
  no verified operation reads them.
* Exceptions are modelled with `Except`; an exception handler is a `match`
  on the error value.
-/

namespace SystemMonitor

/-- One entry of the `disks` list built by `get_disk_info`:
`{'device', 'mountpoint', 'file_system', 'total', 'used', 'free', 'percent'}`. -/
structure DiskInfo where
  device : String
  mountpoint : String
  file_system : String
  total : Nat
  used : Nat
  free : Nat
  percent : ℚ
deriving DecidableEq

/-- A snapshot as assembled by `collect_system_snapshot`, restricted to the
fields read by `check_thresholds` and `get_statistics`.  `cpu_percent` models
`snapshot['cpu'].get('cpu_percent', ...)` (the cpu dict is `{}` when
collection failed, hence `Option`), likewise `memory_percent`; `disks`
models `snapshot['disk'].get('disks', ...)`. -/
structure Snapshot where
  timestamp : ℤ
  cpu_percent : Option ℚ
  memory_percent : Option ℚ
  disks : Option (List DiskInfo)
deriving DecidableEq

/-- The `self.thresholds` dict (its unused `network_speed` key omitted). -/
structure Thresholds where
  cpu_percent : ℚ
  memory_percent : ℚ
  disk_percent : ℚ
deriving DecidableEq

/-- Default thresholds set in `SystemMonitor.__init__`. -/
def defaultThresholds : Thresholds :=
  { cpu_percent := 80, memory_percent := 85, disk_percent := 90 }

/-- The `'type'` key of an alert dict. -/
inductive AlertKind where
  | cpu_high
  | memory_high
  | disk_high
deriving DecidableEq

/-- An alert dict as built by `check_thresholds`; the formatted `message`
string is omitted (it repeats `value`). -/
structure Alert where
  timestamp : ℤ
  kind : AlertKind
  value : ℚ
  threshold : ℚ
deriving DecidableEq

/-- Helper building one alert record. -/
def mkAlert (ts : ℤ) (k : AlertKind) (v thr : ℚ) : Alert :=
  { timestamp := ts, kind := k, value := v, threshold := thr }

/-- `snapshot['cpu'].get('cpu_percent', 0)` as read by `check_thresholds`. -/
def cpuPct (s : Snapshot) : ℚ := s.cpu_percent.getD 0

/-- `snapshot['memory'].get('memory_percent', 0)`. -/
def memPct (s : Snapshot) : ℚ := s.memory_percent.getD 0

/-- `snapshot['disk'].get('disks', [])`. -/
def snapDisks (s : Snapshot) : List DiskInfo := s.disks.getD []

/-- `check_thresholds` (lines 258–296): start from an empty list, append a
`cpu_high` alert when the cpu percent strictly exceeds the threshold, then a
`memory_high` alert likewise, then loop over the partitions appending one
`disk_high` alert per partition whose percent strictly exceeds the disk
threshold. -/
def check_thresholds (th : Thresholds) (s : Snapshot) : List Alert :=
  let a0 : List Alert := []
  let a1 := if cpuPct s > th.cpu_percent then
      a0 ++ [mkAlert s.timestamp .cpu_high (cpuPct s) th.cpu_percent] else a0
  let a2 := if memPct s > th.memory_percent then
      a1 ++ [mkAlert s.timestamp .memory_high (memPct s) th.memory_percent] else a1
  (snapDisks s).foldl
    (fun acc d => if d.percent > th.disk_percent then
        acc ++ [mkAlert s.timestamp .disk_high d.percent th.disk_percent] else acc)
    a2

/-- Rewriting the disk for-loop of `check_thresholds` as a `filterMap`. -/
theorem disk_foldl_eq (th : Thresholds) (ts : ℤ) :
    ∀ (l : List DiskInfo) (init : List Alert),
      l.foldl
        (fun acc d => if d.percent > th.disk_percent then
            acc ++ [mkAlert ts .disk_high d.percent th.disk_percent] else acc)
        init
      = init ++ l.filterMap
          (fun d => if d.percent > th.disk_percent then
              some (mkAlert ts .disk_high d.percent th.disk_percent) else none)
  | [], init => by simp
  | d :: l, init => by
    by_cases h : d.percent > th.disk_percent <;>
      simp [h, disk_foldl_eq th ts l, List.append_assoc]

/-- C1.  `check_thresholds` returns exactly: a `cpu_high` alert iff the cpu
percent strictly exceeds the cpu threshold, then a `memory_high` alert iff
the memory percent strictly exceeds the memory threshold, then one
`disk_high` alert per partition whose percent strictly exceeds the disk
threshold, in partition-enumeration order; equality with a threshold never
alerts (the comparisons are strict), and every alert carries the measured
value together with the threshold it exceeded. -/
theorem check_thresholds_spec (th : Thresholds) (s : Snapshot) :
    check_thresholds th s
      = (if cpuPct s > th.cpu_percent then
            [mkAlert s.timestamp .cpu_high (cpuPct s) th.cpu_percent] else [])
        ++ (if memPct s > th.memory_percent then
            [mkAlert s.timestamp .memory_high (memPct s) th.memory_percent] else [])
        ++ (snapDisks s).filterMap
            (fun d => if d.percent > th.disk_percent then
                some (mkAlert s.timestamp .disk_high d.percent th.disk_percent) else none) := by
  unfold check_thresholds
  rw [disk_foldl_eq]
  by_cases h1 : cpuPct s > th.cpu_percent <;>
    by_cases h2 : memPct s > th.memory_percent <;>
      simp [h1, h2, List.append_assoc]

/-- The last `n` elements of a list (the whole list when it is shorter).
This is Python's `l[-n:]` for `n > 0` and the suffix kept by a
`deque(maxlen=n)`. -/
def lastN (n : Nat) (l : List α) : List α := l.drop (l.length - n)

/-- One `append` on a `collections.deque` with `maxlen = cap`: when the deque
is full the oldest entries are dropped from the left, silently and without
raising. -/
def boundedAppend (cap : Nat) (l : List α) (x : α) : List α :=
  if l.length + 1 ≤ cap then l ++ [x]
  else (l ++ [x]).drop (l.length + 1 - cap)

/-- The alert-buffer update of one tick of `monitor_loop` (lines 307–312):
`self.alerts.extend(new_alerts)` followed by
`if len(self.alerts) > 100: self.alerts = self.alerts[-100:]`. -/
def extend_and_trim (alerts new_alerts : List Alert) : List Alert :=
  let a := alerts ++ new_alerts
  if 100 < a.length then a.drop (a.length - 100) else a

theorem lastN_length (n : Nat) (l : List α) :
    (lastN n l).length = min l.length n := by
  simp [lastN]
  omega

theorem lastN_of_length_le (n : Nat) (l : List α) (h : l.length ≤ n) :
    lastN n l = l := by
  simp [lastN, Nat.sub_eq_zero_of_le h]

/-- Re-truncating after an append is the same as truncating the full
concatenation: the bounded stores retain exactly the most recent `n`
elements. -/
theorem lastN_append_lastN (n : Nat) (l b : List α) :
    lastN n (lastN n l ++ b) = lastN n (l ++ b) := by
  unfold lastN
  rw [List.drop_append_eq_append_drop, List.drop_append_eq_append_drop,
    List.drop_drop]
  have h1 : l.length - n + ((List.drop (l.length - n) l ++ b).length - n)
      = (l ++ b).length - n := by
    simp
    omega
  have h2 : (List.drop (l.length - n) l ++ b).length - n
        - (List.drop (l.length - n) l).length
      = (l ++ b).length - n - l.length := by
    simp
    omega
  rw [h1, h2]

theorem boundedAppend_eq_lastN (cap : Nat) (l : List α) (x : α) :
    boundedAppend cap l x = lastN cap (l ++ [x]) := by
  unfold boundedAppend lastN
  have hl : (l ++ [x]).length = l.length + 1 := by simp
  by_cases h : l.length + 1 ≤ cap
  · rw [if_pos h, hl, Nat.sub_eq_zero_of_le h, List.drop_zero]
  · rw [if_neg h, hl]

theorem boundedAppend_length (cap : Nat) (l : List α) (x : α) :
    (boundedAppend cap l x).length = min (l.length + 1) cap := by
  rw [boundedAppend_eq_lastN, lastN_length]
  simp

theorem extend_and_trim_eq_lastN (alerts new_alerts : List Alert) :
    extend_and_trim alerts new_alerts = lastN 100 (alerts ++ new_alerts) := by
  unfold extend_and_trim lastN
  by_cases h : 100 < (alerts ++ new_alerts).length
  · rw [if_pos h]
  · rw [if_neg h, Nat.sub_eq_zero_of_le (by omega), List.drop_zero]

/-- Folding bounded appends from any truncated seed retains exactly the most
recent `cap` elements of the full append sequence. -/
theorem foldl_boundedAppend (cap : Nat) :
    ∀ (xs : List α) (init : List α),
      xs.foldl (boundedAppend cap) (lastN cap init) = lastN cap (init ++ xs)
  | [], init => by simp
  | x :: xs, init => by
    have h1 : boundedAppend cap (lastN cap init) x = lastN cap (init ++ [x]) := by
      rw [boundedAppend_eq_lastN, lastN_append_lastN]
    calc (x :: xs).foldl (boundedAppend cap) (lastN cap init)
        = xs.foldl (boundedAppend cap) (lastN cap (init ++ [x])) := by
          simp [List.foldl_cons, h1]
      _ = lastN cap ((init ++ [x]) ++ xs) := foldl_boundedAppend cap xs (init ++ [x])
      _ = lastN cap (init ++ x :: xs) := by simp

theorem foldl_boundedAppend_nil (cap : Nat) (xs : List α) :
    xs.foldl (boundedAppend cap) [] = lastN cap xs := by
  have h := foldl_boundedAppend cap xs []
  simpa [lastN] using h

/-- Folding alert batches through `extend_and_trim` retains exactly the most
recent 100 alerts of the full production sequence. -/
theorem foldl_extend_and_trim :
    ∀ (bs : List (List Alert)) (init : List Alert),
      bs.foldl extend_and_trim (lastN 100 init) = lastN 100 (init ++ bs.flatten)
  | [], init => by simp
  | b :: bs, init => by
    have h1 : extend_and_trim (lastN 100 init) b = lastN 100 (init ++ b) := by
      rw [extend_and_trim_eq_lastN, lastN_append_lastN]
    calc (b :: bs).foldl extend_and_trim (lastN 100 init)
        = bs.foldl extend_and_trim (lastN 100 (init ++ b)) := by
          simp [List.foldl_cons, h1]
      _ = lastN 100 ((init ++ b) ++ bs.flatten) := foldl_extend_and_trim bs (init ++ b)
      _ = lastN 100 (init ++ (b :: bs).flatten) := by simp

/-- C2.  After `N` appends to the history deque with `N` greater than the
capacity `C`, the history holds exactly `C` entries, namely the last `C`
appended snapshots in their original order; the earlier appends were
dropped silently (`boundedAppend` is total: no error is ever raised). -/
theorem bounded_history_retains_last (C : Nat) (xs : List Snapshot)
    (h : C < xs.length) :
    (xs.foldl (boundedAppend C) []).length = C
    ∧ xs.foldl (boundedAppend C) [] = xs.drop (xs.length - C) := by
  rw [foldl_boundedAppend_nil]
  refine ⟨?_, rfl⟩
  rw [lastN_length]
  omega

/-- A snapshot used to instantiate the theorems on concrete inputs. -/
def snapA : Snapshot :=
  { timestamp := 0, cpu_percent := some 50, memory_percent := some 60, disks := none }

/-- Witness for C2 at capacity 2 and three appends. -/
theorem bounded_history_retains_last_witness :
    ([snapA, snapA, snapA].foldl (boundedAppend 2) []).length = 2
    ∧ [snapA, snapA, snapA].foldl (boundedAppend 2) [] = [snapA, snapA] := by
  have h := bounded_history_retains_last 2 [snapA, snapA, snapA] (by decide)
  simpa using h

/-- Python's built-in `max` on a nonempty list of floats; the `[]` case is
never reached by `get_statistics` (it is guarded by an emptiness test). -/
def pymax : List ℚ → ℚ
  | [] => 0
  | x :: xs => xs.foldl max x

/-- Python's built-in `min`, same convention as `pymax`. -/
def pymin : List ℚ → ℚ
  | [] => 0
  | x :: xs => xs.foldl min x

theorem foldl_max_mem : ∀ (l : List ℚ) (a : ℚ), l.foldl max a = a ∨ l.foldl max a ∈ l
  | [], _ => Or.inl rfl
  | b :: l, a => by
    rcases foldl_max_mem l (max a b) with h | h
    · rcases max_choice a b with hm | hm <;> rw [List.foldl_cons] <;> rw [h, hm]
      · exact Or.inl rfl
      · exact Or.inr (List.mem_cons_self b l)
    · exact Or.inr (List.mem_cons_of_mem b h)

theorem le_foldl_max : ∀ (l : List ℚ) (a v : ℚ), v = a ∨ v ∈ l → v ≤ l.foldl max a
  | [], a, v, h => by simpa using le_of_eq (h.resolve_right (by simp))
  | b :: l, a, v, h => by
    rw [List.foldl_cons]
    have hstep : max a b ≤ l.foldl max (max a b) :=
      le_foldl_max l (max a b) (max a b) (Or.inl rfl)
    rcases h with h | h
    · exact le_trans (h ▸ le_max_left a b) hstep
    · rcases List.mem_cons.mp h with h | h
      · exact le_trans (h ▸ le_max_right a b) hstep
      · exact le_foldl_max l (max a b) v (Or.inr h)

theorem foldl_min_mem : ∀ (l : List ℚ) (a : ℚ), l.foldl min a = a ∨ l.foldl min a ∈ l
  | [], _ => Or.inl rfl
  | b :: l, a => by
    rcases foldl_min_mem l (min a b) with h | h
    · rcases min_choice a b with hm | hm <;> rw [List.foldl_cons] <;> rw [h, hm]
      · exact Or.inl rfl
      · exact Or.inr (List.mem_cons_self b l)
    · exact Or.inr (List.mem_cons_of_mem b h)

theorem foldl_min_le : ∀ (l : List ℚ) (a v : ℚ), v = a ∨ v ∈ l → l.foldl min a ≤ v
  | [], a, v, h => by simpa using le_of_eq (h.resolve_right (by simp)).symm
  | b :: l, a, v, h => by
    rw [List.foldl_cons]
    rcases h with h | h
    · exact le_trans (foldl_min_le l (min a b) (min a b) (Or.inl rfl)) (by simp [h])
    · rcases List.mem_cons.mp h with h | h
      · exact le_trans (foldl_min_le l (min a b) (min a b) (Or.inl rfl)) (by simp [h])
      · exact foldl_min_le l (min a b) v (Or.inr h)

theorem pymax_mem (l : List ℚ) (h : l ≠ []) : pymax l ∈ l := by
  match l with
  | [] => exact absurd rfl h
  | x :: xs =>
    rcases foldl_max_mem xs x with h1 | h1
    · rw [pymax, h1]; exact List.mem_cons_self x xs
    · rw [pymax]; exact List.mem_cons_of_mem x h1

theorem le_pymax (l : List ℚ) (v : ℚ) (h : v ∈ l) : v ≤ pymax l := by
  match l with
  | [] => simp at h
  | x :: xs =>
    rw [pymax]
    rcases List.mem_cons.mp h with h1 | h1
    · exact le_foldl_max xs x v (Or.inl h1)
    · exact le_foldl_max xs x v (Or.inr h1)

theorem pymin_mem (l : List ℚ) (h : l ≠ []) : pymin l ∈ l := by
  match l with
  | [] => exact absurd rfl h
  | x :: xs =>
    rcases foldl_min_mem xs x with h1 | h1
    · rw [pymin, h1]; exact List.mem_cons_self x xs
    · rw [pymin]; exact List.mem_cons_of_mem x h1

theorem pymin_le (l : List ℚ) (v : ℚ) (h : v ∈ l) : pymin l ≤ v := by
  match l with
  | [] => simp at h
  | x :: xs =>
    rw [pymin]
    rcases List.mem_cons.mp h with h1 | h1
    · exact foldl_min_le xs x v (Or.inl h1)
    · exact foldl_min_le xs x v (Or.inr h1)

/-- `recent_data` of `get_statistics` (lines 343–346): the snapshots whose
timestamp is at least `now - hours` (the cutoff). -/
def recentData (log_data : List Snapshot) (now hours : ℤ) : List Snapshot :=
  log_data.filter (fun e => now - hours ≤ e.timestamp)

/-- `cpu_values` of `get_statistics` (line 352): keep
`entry['cpu'].get('cpu_percent', 0)` for the entries where
`entry['cpu'].get('cpu_percent')` is truthy, i.e. present and nonzero. -/
def cpuValues (recent : List Snapshot) : List ℚ :=
  recent.filterMap (fun e =>
    match e.cpu_percent with
    | some v => if v = 0 then none else some v
    | none => none)

/-- `memory_values` of `get_statistics` (line 353), same truthiness filter. -/
def memValues (recent : List Snapshot) : List ℚ :=
  recent.filterMap (fun e =>
    match e.memory_percent with
    | some v => if v = 0 then none else some v
    | none => none)

/-- The `'cpu'` / `'memory'` sub-dicts of the statistics result. -/
structure MetricStats where
  avg : ℚ
  max : ℚ
  min : ℚ
deriving DecidableEq

/-- The dict returned by `get_statistics`. -/
structure Statistics where
  period_hours : ℤ
  data_points : Nat
  cpu : MetricStats
  memory : MetricStats
deriving DecidableEq

/-- The avg/max/min sub-dict for one list of metric values (lines 358–367):
each field falls back to 0 when the value list is empty. -/
def metricStatsOf (vals : List ℚ) : MetricStats :=
  { avg := if vals.isEmpty then 0 else vals.sum / (vals.length : ℚ)
    max := if vals.isEmpty then 0 else pymax vals
    min := if vals.isEmpty then 0 else pymin vals }

/-- `get_statistics` (lines 337–370).  `now` makes the implicit
`datetime.now()` of the source an explicit argument. -/
def get_statistics (log_data : List Snapshot) (now hours : ℤ) : Option Statistics :=
  if log_data.isEmpty then none
  else
    let recent := recentData log_data now hours
    if recent.isEmpty then none
    else
      some
        { period_hours := hours
          data_points := recent.length
          cpu := metricStatsOf (cpuValues recent)
          memory := metricStatsOf (memValues recent) }

/-- What the claim asks of one avg/max/min block over the surviving metric
values: zeros when no value survived, and otherwise the arithmetic mean, a
greatest element and a least element of the surviving values. -/
def statsOk (m : MetricStats) (vals : List ℚ) : Prop :=
  (vals = [] → m = ⟨0, 0, 0⟩)
  ∧ (vals ≠ [] →
      m.avg = vals.sum / (vals.length : ℚ)
      ∧ m.max ∈ vals ∧ (∀ v ∈ vals, v ≤ m.max)
      ∧ m.min ∈ vals ∧ (∀ v ∈ vals, m.min ≤ v))

theorem metricStatsOf_ok (vals : List ℚ) : statsOk (metricStatsOf vals) vals := by
  constructor
  · intro h
    simp [metricStatsOf, h]
  · intro h
    have he : vals.isEmpty = false := by simpa [List.isEmpty_iff] using h
    refine ⟨by simp [metricStatsOf, he], ?_, ?_, ?_, ?_⟩
    · simpa [metricStatsOf, he] using pymax_mem vals h
    · intro v hv
      simpa [metricStatsOf, he] using le_pymax vals v hv
    · simpa [metricStatsOf, he] using pymin_mem vals h
    · intro v hv
      simpa [metricStatsOf, he] using pymin_le vals v hv

/-- C5.  `get_statistics` returns `none` exactly when no snapshot lies in the
trailing window (never an error: the function is total, and over `ℚ` no NaN
exists; the one division is guarded by the emptiness test).  Otherwise it
returns a record whose `data_points` counts the in-window snapshots and whose
cpu and memory blocks are the mean, maximum and minimum of the surviving
values — snapshots whose relevant field is absent or zero are skipped, and a
metric with no surviving value gets 0 for all three fields. -/
theorem get_statistics_spec (log_data : List Snapshot) (now hours : ℤ) :
    (get_statistics log_data now hours = none ↔ recentData log_data now hours = [])
    ∧ (∀ st, get_statistics log_data now hours = some st →
        st.period_hours = hours
        ∧ st.data_points = (recentData log_data now hours).length
        ∧ statsOk st.cpu (cpuValues (recentData log_data now hours))
        ∧ statsOk st.memory (memValues (recentData log_data now hours))) := by
  constructor
  · unfold get_statistics
    by_cases h0 : log_data.isEmpty
    · have h0' : log_data = [] := List.isEmpty_iff.mp h0
      simp [h0', recentData]
    · rw [if_neg h0]
      by_cases h1 : (recentData log_data now hours).isEmpty
      · simp [h1, List.isEmpty_iff.mp h1]
      · rw [if_neg h1]
        have h1' : recentData log_data now hours ≠ [] := by
          simpa [List.isEmpty_iff] using h1
        constructor
        · intro hc
          simp at hc
        · intro hc
          exact absurd hc h1'
  · intro st hst
    unfold get_statistics at hst
    by_cases h0 : log_data.isEmpty
    · rw [if_pos h0] at hst; exact absurd hst (by simp)
    · rw [if_neg h0] at hst
      by_cases h1 : (recentData log_data now hours).isEmpty
      · rw [if_pos h1] at hst; exact absurd hst (by simp)
      · rw [if_neg h1] at hst
        have hst' := (Option.some_inj.mp hst).symm
        subst hst'
        exact ⟨rfl, rfl, metricStatsOf_ok _, metricStatsOf_ok _⟩

/-- Witness for C5: one snapshot inside a 2-hour window evaluated at time 1. -/
theorem get_statistics_spec_witness :
    get_statistics [snapA] 1 2 = some ⟨2, 1, ⟨50, 50, 50⟩, ⟨60, 60, 60⟩⟩
    ∧ statsOk (⟨50, 50, 50⟩ : MetricStats) (cpuValues (recentData [snapA] 1 2)) := by
  have h50 : ¬ ((50 : ℚ) = 0) := by decide
  have h60 : ¬ ((60 : ℚ) = 0) := by decide
  have heq : get_statistics [snapA] 1 2 = some ⟨2, 1, ⟨50, 50, 50⟩, ⟨60, 60, 60⟩⟩ := by
    simp [get_statistics, recentData, cpuValues, memValues, metricStatsOf, snapA,
      pymax, pymin, h50, h60]
  exact ⟨heq, ((get_statistics_spec [snapA] 1 2).2 _ heq).2.2.1⟩

/-- The durable store behind `self.log_file`: absent, unreadable/unparsable,
or a readable serialized record sequence.  `json.dump`/`json.load` are an
external inverse pair, so a well-formed file is modelled directly by the
record list it holds. -/
inductive Store where
  | missing
  | corrupt
  | good (data : List Snapshot)
deriving DecidableEq

/-- `load_log_data` (lines 34–43) run at startup on a fresh empty deque,
also reporting whether the exception handler printed a warning: a missing
file is skipped silently (`os.path.exists` is `False`, nothing is printed),
an unreadable or unparsable file raises inside the `try`, is caught, and a
warning is printed with the history left empty, and a good file has its last
1000 records appended in order into the `deque(maxlen=1000)`. -/
def load_log_data_run : Store → List Snapshot × Bool
  | .missing => ([], false)
  | .corrupt => ([], true)
  | .good data => ((lastN 1000 data).foldl (boundedAppend 1000) [], false)

/-- The history produced by `load_log_data` at startup. -/
def load_log_data (st : Store) : List Snapshot := (load_log_data_run st).1

/-- `save_log_data` (lines 45–51): on success the file is overwritten with
the current history; a failed write raises inside the `try`, is caught and
only a warning is printed — the call always returns and never touches the
in-memory history. -/
inductive SaveOutcome where
  | ok
  | ioError
deriving DecidableEq

/-- One `save_log_data` call under the given I/O outcome: the resulting
store content and whether the exception handler printed a warning. -/
def save_log_data_run (o : SaveOutcome) (log_data : List Snapshot) (store : Store) :
    Store × Bool :=
  match o with
  | .ok => (Store.good log_data, false)
  | .ioError => (store, true)

/-- The engine state mutated by `monitor_loop`: the history deque
`self.log_data`, the alert list `self.alerts`, and an instrumentation
counter of how many times `self.save_log_data()` was called. -/
structure MonState where
  log_data : List Snapshot
  alerts : List Alert
  saves : Nat
deriving DecidableEq

/-- Engine state right after `SystemMonitor.__init__`: history loaded from
the store, `self.alerts = []`. -/
def initState (store : Store) : MonState :=
  { log_data := load_log_data store, alerts := [], saves := 0 }

/-- One tick of `monitor_loop` (lines 300–318) on an already collected
snapshot: append to the history deque, evaluate thresholds, extend and trim
the alert list, then `if len(self.log_data) % 10 == 0: self.save_log_data()`. -/
def tick (th : Thresholds) (st : MonState) (s : Snapshot) : MonState :=
  let log' := boundedAppend 1000 st.log_data s
  let alerts' := extend_and_trim st.alerts (check_thresholds th s)
  { log_data := log'
    alerts := alerts'
    saves := if log'.length % 10 = 0 then st.saves + 1 else st.saves }

/-- A run of `monitor_loop` over a list of collected snapshots, one tick
each. -/
def run (th : Thresholds) (st : MonState) (ss : List Snapshot) : MonState :=
  ss.foldl (tick th) st

theorem run_alerts (th : Thresholds) :
    ∀ (ss : List Snapshot) (st : MonState),
      (run th st ss).alerts
        = ss.foldl (fun a s => extend_and_trim a (check_thresholds th s)) st.alerts
  | [], _ => rfl
  | s :: ss, st => by
    rw [run, List.foldl_cons, List.foldl_cons, ← run]
    exact run_alerts th ss (tick th st s)

theorem run_log_length (th : Thresholds) :
    ∀ (ss : List Snapshot) (st : MonState), st.log_data.length ≤ 1000 →
      (run th st ss).log_data.length = min (st.log_data.length + ss.length) 1000
  | [], st, h => by
    simp [run]
    omega
  | s :: ss, st, h => by
    rw [run, List.foldl_cons, ← run]
    have h1 : (tick th st s).log_data.length = min (st.log_data.length + 1) 1000 := by
      simp [tick, boundedAppend_length]
    have h2 := run_log_length th ss (tick th st s) (by omega)
    rw [h2, h1]
    simp
    omega

theorem foldl_extend_eq_batches (th : Thresholds) :
    ∀ (ss : List Snapshot) (a : List Alert),
      ss.foldl (fun a s => extend_and_trim a (check_thresholds th s)) a
        = (ss.map (check_thresholds th)).foldl extend_and_trim a
  | [], _ => rfl
  | s :: ss, a => by
    simp only [List.foldl_cons, List.map_cons]
    exact foldl_extend_eq_batches th ss (extend_and_trim a (check_thresholds th s))

/-- C6.  Starting from a fresh engine (empty alert list), after any run of
the monitor loop the alert list never exceeds 100 entries, and on overflow
the oldest alerts were evicted: the retained alerts are exactly the most
recent 100 of all alerts produced, in production order. -/
theorem alert_buffer_bounded (th : Thresholds) (store : Store) (ss : List Snapshot) :
    (run th (initState store) ss).alerts.length ≤ 100
    ∧ (run th (initState store) ss).alerts
        = lastN 100 (ss.map (check_thresholds th)).flatten := by
  have h : (run th (initState store) ss).alerts
      = lastN 100 (ss.map (check_thresholds th)).flatten := by
    rw [run_alerts, foldl_extend_eq_batches]
    have h0 : (initState store).alerts = lastN 100 [] := rfl
    rw [h0, foldl_extend_and_trim]
    simp
  refine ⟨?_, h⟩
  rw [h, lastN_length]
  omega

/-- C3 fails as stated: persistence is keyed on the history length, not the
tick count.  Starting with 9 records already loaded from the store, the very
first tick brings the history length to 10 and triggers a save, although
tick 1 is not a multiple of 10. -/
theorem save_not_every_tenth_tick :
    (run defaultThresholds
        { log_data := List.replicate 9 snapA, alerts := [], saves := 0 }
        [snapA]).saves = 1
    ∧ ¬ (1 % 10 = 0) := by
  constructor
  · rfl
  · decide

/-- C3 as amended.  A tick saves the history iff the history length right
after the tick's append — `min (previous length + 1) 1000` — is a multiple
of 10; equivalently, over a run the length grows as
`min (initial length + ticks) 1000`, so with an initially empty history a
save happens exactly on every 10th tick until the capacity 1000 is reached,
after which the length stays 1000 and a save happens on every tick; with a
nonempty loaded history the save pattern is shifted by the loaded length. -/
theorem save_keyed_on_history_length (th : Thresholds) (st : MonState)
    (s : Snapshot) (ss : List Snapshot) (h : st.log_data.length ≤ 1000) :
    ((tick th st s).saves = st.saves + 1
      ↔ min (st.log_data.length + 1) 1000 % 10 = 0)
    ∧ (run th st ss).log_data.length = min (st.log_data.length + ss.length) 1000 := by
  constructor
  · have hlen : (boundedAppend 1000 st.log_data s).length
        = min (st.log_data.length + 1) 1000 := boundedAppend_length 1000 st.log_data s
    simp only [tick]
    rw [hlen]
    by_cases hc : min (st.log_data.length + 1) 1000 % 10 = 0
    · simp [hc]
    · simp [hc]
  · exact run_log_length th ss st h

/-- Witness for the amended C3: from an empty history, the 10th append
makes the length 10 and the tick saves. -/
theorem save_keyed_on_history_length_witness :
    ((tick defaultThresholds
        { log_data := List.replicate 9 snapA, alerts := [], saves := 0 } snapA).saves
      = 0 + 1 ↔ min (9 + 1) 1000 % 10 = 0)
    ∧ (run defaultThresholds
        { log_data := List.replicate 9 snapA, alerts := [], saves := 0 }
        [snapA]).log_data.length = min (9 + 1) 1000 := by
  have h := save_keyed_on_history_length defaultThresholds
    { log_data := List.replicate 9 snapA, alerts := [], saves := 0 } snapA [snapA]
    (by decide)
  simpa using h

/-- C7.  Saving the history and loading it into a fresh engine reproduces
the same ordered snapshot sequence truncated to the last 1000 records; the
engine's history never exceeds 1000 records, so for it the round-trip is the
identity. -/
theorem save_load_round_trip (xs : List Snapshot) :
    load_log_data (Store.good xs) = lastN 1000 xs
    ∧ load_log_data (save_log_data_run .ok xs Store.missing).1 = lastN 1000 xs
    ∧ (xs.length ≤ 1000 → load_log_data (save_log_data_run .ok xs Store.missing).1 = xs) := by
  have h : load_log_data (Store.good xs) = lastN 1000 xs := by
    have hdef : load_log_data (Store.good xs)
        = (lastN 1000 xs).foldl (boundedAppend 1000) [] := by
      simp only [load_log_data, load_log_data_run]
    rw [hdef, foldl_boundedAppend_nil]
    apply lastN_of_length_le
    rw [lastN_length]
    omega
  refine ⟨h, h, fun hle => ?_⟩
  rw [save_log_data_run]
  exact h.trans (lastN_of_length_le 1000 xs hle)

/-- Witness for C7 on a one-snapshot history. -/
theorem save_load_round_trip_witness :
    load_log_data (save_log_data_run .ok [snapA] Store.missing).1 = [snapA] := by
  exact (save_load_round_trip [snapA]).2.2 (by decide)

/-- C8 fails in one detail: when the store file is missing, `load_log_data`
skips the whole body (`os.path.exists` is false) and prints nothing, so
startup is silent — no warning is logged, contrary to the claim; the
warning is printed only when reading or parsing the existing file raises. -/
theorem missing_store_logs_no_warning :
    load_log_data_run Store.missing = ([], false)
    ∧ ¬ ((load_log_data_run Store.missing).2 = true) := by
  constructor
  · rfl
  · decide

/-- C8 as amended.  A missing store yields a silently empty history (startup
succeeds, nothing is logged); a corrupt store yields an empty history plus a
logged warning (startup still succeeds); a failed save is swallowed — the
call returns normally with only a logged warning, and the in-memory engine
state is untouched (the save never mutates it). -/
theorem persistence_failures_tolerated :
    load_log_data_run Store.missing = ([], false)
    ∧ load_log_data_run Store.corrupt = ([], true)
    ∧ (∀ (log_data : List Snapshot) (store : Store),
        save_log_data_run .ioError log_data store = (store, true)) := by
  exact ⟨rfl, rfl, fun _ _ => rfl⟩

/-- `get_statistics` as invoked on the engine: it reads `self.log_data` and
returns the statistics without mutating any engine state. -/
def get_statistics_op (st : MonState) (now hours : ℤ) : Option Statistics × MonState :=
  (get_statistics st.log_data now hours, st)

/-- C9 fails as stated: the trailing window is anchored at the wall clock
(`datetime.now()`), so two consecutive calls with the same window and no
intervening append can disagree once enough time has passed for a snapshot
to age out of the window.  Here a snapshot at hour 0 is inside the 1-hour
window at time 0 but outside it at time 2. -/
theorem statistics_calls_can_differ :
    ((0 : ℤ) ≤ 2)
    ∧ (get_statistics_op { log_data := [snapA], alerts := [], saves := 0 } 0 1).1.isSome
    ∧ (get_statistics_op { log_data := [snapA], alerts := [], saves := 0 } 2 1).1 = none
    ∧ (get_statistics_op { log_data := [snapA], alerts := [], saves := 0 } 0 1).1
        ≠ (get_statistics_op { log_data := [snapA], alerts := [], saves := 0 } 2 1).1 := by
  have h1 : (get_statistics_op { log_data := [snapA], alerts := [], saves := 0 } 0 1).1.isSome := by
    simp [get_statistics_op, get_statistics, recentData, snapA]
  have h2 : (get_statistics_op { log_data := [snapA], alerts := [], saves := 0 } 2 1).1 = none := by
    simp [get_statistics_op, get_statistics, recentData, snapA]
  refine ⟨by decide, h1, h2, fun hc => ?_⟩
  rw [h2] at hc
  rw [hc] at h1
  simp at h1

/-- C9 as amended.  `get_statistics` mutates nothing, so two calls with the
same window evaluated at the same instant with no intervening append return
identical results (the function is pure in the history, the clock reading
and the window). -/
theorem statistics_idempotent_same_instant (st : MonState) (now hours : ℤ) :
    (get_statistics_op st now hours).2 = st
    ∧ (get_statistics_op ((get_statistics_op st now hours).2) now hours).1
        = (get_statistics_op st now hours).1 := by
  exact ⟨rfl, rfl⟩

/-- A partition as enumerated by `psutil.disk_partitions()`, together with
the behaviour of `psutil.disk_usage` on its mountpoint: `readable = false`
means `disk_usage` raises `PermissionError`, otherwise it reports the given
total/used/free byte counts. -/
structure PartitionEntry where
  device : String
  mountpoint : String
  fstype : String
  readable : Bool
  total : Nat
  used : Nat
  free : Nat
deriving DecidableEq

/-- The exceptions that can arise per partition inside `get_disk_info`. -/
inductive PyError where
  | permissionError
  | zeroDivisionError
deriving DecidableEq

/-- `psutil.disk_usage(partition.mountpoint)` (line 137). -/
def disk_usage (p : PartitionEntry) : Except PyError (Nat × Nat × Nat) :=
  if p.readable then Except.ok (p.total, p.used, p.free)
  else Except.error PyError.permissionError

/-- Building one `disk_info` dict (lines 137–146).  The percent is
`(used / total) * 100` with no guard on `total`: in Python a partition
reporting `total == 0` raises `ZeroDivisionError` here. -/
def partition_info (p : PartitionEntry) : Except PyError DiskInfo :=
  match disk_usage p with
  | Except.error e => Except.error e
  | Except.ok (t, u, f) =>
    if t = 0 then Except.error PyError.zeroDivisionError
    else Except.ok
      { device := p.device, mountpoint := p.mountpoint, file_system := p.fstype
        total := t, used := u, free := f
        percent := ((u : ℚ) / (t : ℚ)) * 100 }

/-- The partition loop of `get_disk_info` (lines 135–150): the per-partition
`try/except PermissionError` skips an unreadable partition and continues;
any other exception propagates out of the loop. -/
def collect_partitions : List PartitionEntry → Except PyError (List DiskInfo)
  | [] => Except.ok []
  | p :: ps =>
    match partition_info p with
    | Except.ok d =>
      match collect_partitions ps with
      | Except.ok ds => Except.ok (d :: ds)
      | Except.error e => Except.error e
    | Except.error PyError.permissionError => collect_partitions ps
    | Except.error e => Except.error e

/-- `get_disk_info` (lines 129–171), restricted to the `disks` list (the
`disk_io` counters are never read by the verified operations): the outer
`try/except Exception` turns any escaped exception into an empty reading
`{}`, modelled as `none`. -/
def get_disk_info (ps : List PartitionEntry) : Option (List DiskInfo) :=
  match collect_partitions ps with
  | Except.ok ds => some ds
  | Except.error _ => none

theorem collect_partitions_zero_total :
    ∀ (ps : List PartitionEntry), (∃ p ∈ ps, p.readable = true ∧ p.total = 0) →
      ∃ e, collect_partitions ps = Except.error e
  | [], h => by simp at h
  | q :: ps, h => by
    rcases h with ⟨p, hp, hr, ht⟩
    rcases List.mem_cons.mp hp with hq | hq
    · subst hq
      refine ⟨PyError.zeroDivisionError, ?_⟩
      have hpi : partition_info p = Except.error PyError.zeroDivisionError := by
        unfold partition_info disk_usage
        rw [if_pos hr, ht]
        simp
      unfold collect_partitions
      rw [hpi]
    · have htail := collect_partitions_zero_total ps ⟨p, hq, hr, ht⟩
      rcases htail with ⟨e, he⟩
      unfold collect_partitions
      match hqi : partition_info q with
      | Except.ok d => rw [he]; exact ⟨e, rfl⟩
      | Except.error PyError.permissionError => exact ⟨e, he⟩
      | Except.error PyError.zeroDivisionError => exact ⟨PyError.zeroDivisionError, rfl⟩

/-- C10.  A readable partition reporting `total = 0` makes the division
`(used / total) * 100` raise `ZeroDivisionError`; the per-partition handler
catches only `PermissionError`, so the exception escapes the loop to the
outer handler and the whole disk reading for the snapshot collapses to the
empty `{}` — every other partition's data is discarded, rather than only
the offending partition being skipped. -/
theorem zero_total_discards_whole_reading (ps : List PartitionEntry)
    (h : ∃ p ∈ ps, p.readable = true ∧ p.total = 0) :
    get_disk_info ps = none := by
  rcases collect_partitions_zero_total ps h with ⟨e, he⟩
  unfold get_disk_info
  rw [he]

/-- Two concrete partitions: a healthy readable one and a readable
pseudo-filesystem reporting zero total bytes. -/
def goodPart : PartitionEntry :=
  { device := "/dev/sda1", mountpoint := "/", fstype := "ext4"
    readable := true, total := 1000, used := 500, free := 500 }

/-- A readable partition with `total = 0`. -/
def zeroPart : PartitionEntry :=
  { device := "/dev/loop0", mountpoint := "/snap", fstype := "squashfs"
    readable := true, total := 0, used := 0, free := 0 }

/-- Witness for C10: the healthy partition's data is discarded along with
the zero-total one. -/
theorem zero_total_discards_whole_reading_witness :
    get_disk_info [goodPart, zeroPart] = none := by
  exact zero_total_discards_whole_reading [goodPart, zeroPart]
    ⟨zeroPart, by decide, by decide, by decide⟩

/-- Program counter of the background `monitor_loop` thread: about to test
`while self.monitoring` (`check`), executing the body of one tick (`body`),
inside `time.sleep(interval)` (`sleeping`), or returned (`exited`). -/
inductive WorkerPC where
  | check
  | body
  | sleeping
  | exited
deriving DecidableEq

/-- Program counter of the caller running `stop_monitoring`: about to test
`if self.monitoring` and clear the flag (`signal`), about to run the final
`self.save_log_data()` (`save`), or returned (`done`). -/
inductive MainPC where
  | signal
  | save
  | done
deriving DecidableEq

/-- Joint state of the two threads after `start_monitoring` has launched the
daemon worker.  `stopSaves` counts the `save_log_data` calls made by
`stop_monitoring`; `ticksCompleted` counts fully finished tick bodies. -/
structure SysState where
  monitoring : Bool
  worker : WorkerPC
  main : MainPC
  stopSaves : Nat
  ticksCompleted : Nat
deriving DecidableEq

/-- One atomic step of the chosen thread (`true` = worker, `false` = main).
The worker follows `monitor_loop` (lines 300–322): test the flag, run one
tick body, sleep, repeat; it holds no lock and is never joined.  The main
thread follows `stop_monitoring` (lines 330–335): test-and-clear the flag,
then one final save, then return — with no synchronization against the
worker. -/
def sysStep (st : SysState) (workerTurn : Bool) : SysState :=
  if workerTurn then
    match st.worker with
    | .check => { st with worker := if st.monitoring then .body else .exited }
    | .body => { st with worker := .sleeping, ticksCompleted := st.ticksCompleted + 1 }
    | .sleeping => { st with worker := .check }
    | .exited => st
  else
    match st.main with
    | .signal =>
      if st.monitoring then { st with monitoring := false, main := .save }
      else { st with main := .done }
    | .save => { st with stopSaves := st.stopSaves + 1, main := .done }
    | .done => st

/-- Run a schedule (one boolean per granted step). -/
def sysRun (st : SysState) (sched : List Bool) : SysState :=
  sched.foldl sysStep st

/-- State right after `start_monitoring` while `stop_monitoring` is about to
run: the flag is set, the worker is at its loop test, no tick has finished. -/
def sysInit : SysState :=
  { monitoring := true, worker := .check, main := .signal
    stopSaves := 0, ticksCompleted := 0 }

/-- C4's failing schedule, evaluated on the code.  `stop_monitoring` never
joins the worker thread, so the schedule in which the worker passes the
loop test and enters the tick body, and the main thread then runs
`stop_monitoring` to completion, is a real interleaving: stop has returned
(after its single final save) while the tick body is still in flight and no
tick has completed — the code does not wait for the in-flight tick, contrary
to the claim. -/
theorem stop_returns_during_inflight_tick :
    (sysRun sysInit [true, false, false]).main = MainPC.done
    ∧ (sysRun sysInit [true, false, false]).worker = WorkerPC.body
    ∧ (sysRun sysInit [true, false, false]).stopSaves = 1
    ∧ (sysRun sysInit [true, false, false]).ticksCompleted = 0
    ∧ (sysRun sysInit [true, false, false]).monitoring = false := by
  decide

end SystemMonitor
